import Mathlib

/-!
Verification of the taurus-pro-http composite rate limiter.

Shallow embedding of `pkg/common/rate_limiter.go`: a token-bucket limiter
(`RateLimiter`), a two-tier composite limiter (`CompositeRateLimiter`) with an
admission queue and a background drainer (`processQueue`), and the doorbell
signal channel (`queueSignal`).

Modelling conventions:
* Go `int` token counts are `Int`; Go `time.Duration` / timestamps
  (monotonic-nanosecond values) are `Nat`.  `now.Sub(lastTokenTime)` is `Nat`
  subtraction: for a monotone clock (`lastTokenTime ≤ now`) this is exact, and
  for a hypothetical backwards step both the Go code (negative quotient, so
  `tokensToAdd > 0` fails) and the model (truncation to `0`) perform no refill.
* Go channels are modelled by their buffer discipline: the doorbell is a
  counter of pending signals with capacity 1, a caller's wait handle is an id
  in the queue, and the value the drainer writes into a handle is recorded
  explicitly.
* Each state-mutating Go method becomes a function from the old state (plus
  the current clock reading) to the result and the new state.
-/

/-- The `RateLimiter` struct (rate_limiter.go lines 29-35), without the mutex:
all uses in this file are under the composite limiter's single lock. -/
structure RateLimiter where
  capacity : Int
  tokens : Int
  fillInterval : Nat
  lastTokenTime : Nat
deriving Repr, DecidableEq

/-- Constructor `NewRateLimiter` (lines 40-47): no validation, tokens start at capacity. -/
def NewRateLimiter (capacity : Int) (fillInterval : Nat) (now : Nat) : RateLimiter :=
  { capacity := capacity
    tokens := capacity
    fillInterval := fillInterval
    lastTokenTime := now }

/-- Method `RateLimiter.Allow` (lines 51-72): refill by whole elapsed intervals,
capped at capacity, then consume one token if available.  `now` is the value
of `time.Now()` observed by this call. -/
def RateLimiter.Allow (rl : RateLimiter) (now : Nat) : Bool × RateLimiter :=
  let elapsed : Nat := now - rl.lastTokenTime
  let tokensToAdd : Int := ((elapsed / rl.fillInterval : Nat) : Int)
  let rl1 :=
    if tokensToAdd > 0 then
      { rl with tokens := min rl.capacity (rl.tokens + tokensToAdd), lastTokenTime := now }
    else rl
  if rl1.tokens > 0 then
    (true, { rl1 with tokens := rl1.tokens - 1 })
  else
    (false, rl1)

/-- Number of whole fill intervals elapsed at `now` (line 59's quotient). -/
def RateLimiter.tokensToAdd (rl : RateLimiter) (now : Nat) : Int :=
  (((now - rl.lastTokenTime) / rl.fillInterval : Nat) : Int)

/-- Token count right after the refill step of an `Allow` call at `now`,
before the consume step (lines 60-63). -/
def RateLimiter.refilledTokens (rl : RateLimiter) (now : Nat) : Int :=
  if rl.tokensToAdd now > 0 then min rl.capacity (rl.tokens + rl.tokensToAdd now)
  else rl.tokens

/-- Iterate `Allow` at a fixed clock reading, collecting the results. -/
def RateLimiter.allowRepeat (rl : RateLimiter) (now : Nat) : Nat → List Bool × RateLimiter
  | 0 => ([], rl)
  | n + 1 =>
    let step := rl.Allow now
    let rest := step.2.allowRepeat now n
    (step.1 :: rest.1, rest.2)


/-- Buffer capacity of a caller's wait handle: `wait := make(chan bool)`
(line 134) creates an *unbuffered* channel. -/
def waitChanCapacity : Nat := 0

/-- Buffer capacity of the doorbell: `make(chan struct\x7b\x7d, 1)` (line 105). -/
def queueSignalCapacity : Nat := 1

/-- Whether a send on a Go channel with the given buffer capacity and number of
buffered values completes when no receiver is (or ever will be) receiving: it
does exactly when a buffer slot is free; otherwise the sender blocks. -/
def sendCompletesWithoutReceiver (capacity buffered : Nat) : Bool :=
  buffered < capacity

/-- The enqueue path's `select \x7b case queueSignal <- ...: ; default: \x7d`
(lines 138-141) on the capacity-1 doorbell: buffer the signal if a slot is
free, otherwise take the `default` branch and drop it.  Total in `pending`,
so the signaler never waits. -/
def trySendSignal (pending : Nat) : Nat :=
  if pending < queueSignalCapacity then pending + 1 else pending

/-- Doorbell states reachable from the freshly constructed channel (empty
buffer) under the two operations the code performs on it: the enqueue path's
non-blocking send and the drainer's receive (`for range queueSignal`,
line 158), which fires only when a signal is pending. -/
inductive SignalReachable : Nat → Prop
  | init : SignalReachable 0
  | send {p : Nat} : SignalReachable p → SignalReachable (trySendSignal p)
  | recv {p : Nat} : SignalReachable p → 0 < p → SignalReachable (p - 1)

/-- The `CompositeRateLimiter` struct (lines 84-92), without the mutex.
The `queue []chan bool` of distinct channel objects is modelled as a list of
ids, with `nextWaitId` supplying a fresh id per created handle, and the
doorbell channel by its number of buffered signals. -/
structure CompositeRateLimiter where
  ipLimiters : List (String × RateLimiter)
  globalLimiter : RateLimiter
  queue : List Nat
  queueSignalPending : Nat
  ipCapacity : Int
  globalCapacity : Int
  nextWaitId : Nat
deriving Repr, DecidableEq

/-- Constructor `NewCompositeRateLimiter` (lines 98-111): again no validation of the
capacities or the interval. -/
def NewCompositeRateLimiter (ipCapacity globalCapacity : Int) (fillInterval : Nat)
    (now : Nat) : CompositeRateLimiter :=
  { ipLimiters := []
    globalLimiter := NewRateLimiter globalCapacity fillInterval now
    queue := []
    queueSignalPending := 0
    ipCapacity := ipCapacity
    globalCapacity := globalCapacity
    nextWaitId := 0 }

/-- Lines 119-123: the per-ip limiter used by this call — the registered one,
or a freshly constructed one when the ip is new. -/
def CompositeRateLimiter.ensuredIpLimiter (c : CompositeRateLimiter) (ip : String)
    (now : Nat) : RateLimiter :=
  match c.ipLimiters.lookup ip with
  | some l => l
  | none => NewRateLimiter c.ipCapacity c.globalLimiter.fillInterval now

/-- Store a limiter under `ip`: overwrite the first binding if present (the Go
map holds one entry per key), else append the new binding. -/
def storeIpLimiter : List (String × RateLimiter) → String → RateLimiter →
    List (String × RateLimiter)
  | [], ip, rl => [(ip, rl)]
  | (k, v) :: rest, ip, rl =>
    if k = ip then (ip, rl) :: rest else (k, v) :: storeIpLimiter rest ip rl

/-- How the blocking wait on a caller's handle (lines 147-152) ends: either the
drainer resolved the handle with value `v` before the timeout, or the
5-second timer fired first.  Which one happens is the scheduler's choice, so
it is a parameter of the model. -/
inductive WaitOutcome where
  | resolved (v : Bool)
  | timedOut
deriving Repr, DecidableEq

/-- The timeout of the wait, in seconds: `time.After(5 * time.Second)`. -/
def queueWaitTimeoutSeconds : Nat := 5

/-- The value a queued caller returns for each way its wait can end
(lines 147-152). -/
def waitResult : WaitOutcome → Bool × String
  | .resolved v => (v, "")
  | .timedOut => (false, "请求超时，请稍后再试！")

/-- Lines 131-152: append a fresh wait handle to the queue tail, ring the
doorbell without blocking, then block on the handle and return `waitResult`
of however the wait ends. -/
def CompositeRateLimiter.enqueueAndWait (c : CompositeRateLimiter)
    (o : WaitOutcome) : (Bool × String) × CompositeRateLimiter :=
  let c' := { c with
    queue := c.queue ++ [c.nextWaitId]
    nextWaitId := c.nextWaitId + 1
    queueSignalPending := trySendSignal c.queueSignalPending }
  (waitResult o, c')

/-- Method `CompositeRateLimiter.Allow` (lines 115-153).  The guard on line 126 is
Go's short-circuiting `globalLimiter.Allow() && ipLimiter.Allow()`.  The per-ip
limiter is registered (line 122) before the guard runs; when its `Allow` runs,
the state it mutates is re-stored (the Go map holds a pointer).  `o` is how the
wait would end should this call fail immediate admission and enqueue. -/
def CompositeRateLimiter.Allow (c : CompositeRateLimiter) (ip : String) (now : Nat)
    (o : WaitOutcome) : (Bool × String) × CompositeRateLimiter :=
  let ipLimiter := c.ensuredIpLimiter ip now
  let c0 := { c with ipLimiters := storeIpLimiter c.ipLimiters ip ipLimiter }
  let g := c0.globalLimiter.Allow now
  if g.1 then
    let i := ipLimiter.Allow now
    let c1 := { c0 with
      globalLimiter := g.2
      ipLimiters := storeIpLimiter c0.ipLimiters ip i.2 }
    if i.1 then ((true, ""), c1)
    else c1.enqueueAndWait o
  else
    ({ c0 with globalLimiter := g.2 }).enqueueAndWait o

/-- One drain pass of `processQueue` (lines 161-166) over the wait-handle
queue: while the queue is non-empty and the global limiter admits, pop the
head and record the value written into its handle (`wait <- true`, line 164).
Returns the resolutions in pop order, the untouched remainder of the queue,
and the global limiter's final state.  When `Allow` denies, its state change
(a possible refill) is kept, exactly as in Go where `Allow` mutates the
receiver before returning `false`. -/
def drainQueue : List Nat → RateLimiter → Nat →
    List (Nat × Bool) × List Nat × RateLimiter
  | [], g, _ => ([], [], g)
  | w :: rest, g, now =>
    let a := g.Allow now
    if a.1 then
      let r := drainQueue rest a.2 now
      ((w, true) :: r.1, r.2.1, r.2.2)
    else
      ([], w :: rest, a.2)

/-- One wake-up of the drainer (the body of the `for range queueSignal` loop,
lines 158-167) on the composite state: it reads and writes only the queue and
the global limiter. -/
def CompositeRateLimiter.processQueueWake (c : CompositeRateLimiter) (now : Nat) :
    List (Nat × Bool) × CompositeRateLimiter :=
  let d := drainQueue c.queue c.globalLimiter now
  (d.1, { c with queue := d.2.1, globalLimiter := d.2.2 })


/-! ## Token-bucket lemmas -/

/-- A positive interval quotient means the clock actually advanced past
`lastTokenTime`. -/
lemma lastTokenTime_lt_of_tokensToAdd_pos {rl : RateLimiter} {now : Nat}
    (h : rl.tokensToAdd now > 0) : rl.lastTokenTime < now := by
  by_contra hlt
  have hle : now ≤ rl.lastTokenTime := Nat.le_of_not_lt hlt
  have hz : now - rl.lastTokenTime = 0 := Nat.sub_eq_zero_of_le hle
  simp [RateLimiter.tokensToAdd, hz] at h

lemma tokensToAdd_nonneg (rl : RateLimiter) (now : Nat) : 0 ≤ rl.tokensToAdd now :=
  Int.natCast_nonneg _

/-- Unfolded form of `Allow` in terms of the refill helpers. -/
lemma allow_eq (rl : RateLimiter) (now : Nat) :
    rl.Allow now =
      (if rl.refilledTokens now > 0 then
        (true, { capacity := rl.capacity, tokens := rl.refilledTokens now - 1,
                 fillInterval := rl.fillInterval,
                 lastTokenTime := if rl.tokensToAdd now > 0 then now else rl.lastTokenTime })
      else
        (false, { capacity := rl.capacity, tokens := rl.refilledTokens now,
                  fillInterval := rl.fillInterval,
                  lastTokenTime := if rl.tokensToAdd now > 0 then now else rl.lastTokenTime })) := by
  unfold RateLimiter.Allow RateLimiter.refilledTokens RateLimiter.tokensToAdd
  simp only [apply_ite RateLimiter.tokens, apply_ite RateLimiter.capacity,
    apply_ite RateLimiter.fillInterval, apply_ite RateLimiter.lastTokenTime, ite_self]
  split
  · rfl
  · split <;> rfl

/-! ## Claims C2-C5 on the token bucket -/

/-- C2 counterexample: constructing with capacity `0` and fill interval `0`
(both non-positive) is not rejected — `NewRateLimiter` and
`NewCompositeRateLimiter` return fully formed limiter instances, and the
capacity-`0` bucket then silently denies every request. -/
theorem newRateLimiter_no_validation_counterexample :
    NewRateLimiter 0 0 0 =
      { capacity := 0, tokens := 0, fillInterval := 0, lastTokenTime := 0 }
    ∧ (NewCompositeRateLimiter 0 0 0 0).globalLimiter =
        { capacity := 0, tokens := 0, fillInterval := 0, lastTokenTime := 0 }
    ∧ ((NewRateLimiter 0 1 0).Allow 1000000).1 = false := by
  decide

/-- C2 (amended): construction performs no validation at all — any capacity
and any fill interval, positive or not, yield a limiter instance whose tokens
start at the capacity; a bucket with non-positive capacity then degrades into
one that always denies (its token count can never become positive). -/
theorem newRateLimiter_no_validation :
    (∀ (capacity : Int) (fillInterval now : Nat),
      NewRateLimiter capacity fillInterval now =
        { capacity := capacity, tokens := capacity, fillInterval := fillInterval,
          lastTokenTime := now })
    ∧ (∀ (ic gc : Int) (fillInterval now : Nat),
      (NewCompositeRateLimiter ic gc fillInterval now).globalLimiter =
        NewRateLimiter gc fillInterval now)
    ∧ (∀ (rl : RateLimiter) (t : Nat), rl.capacity ≤ 0 → rl.tokens ≤ 0 →
      (rl.Allow t).1 = false ∧ (rl.Allow t).2.capacity ≤ 0 ∧ (rl.Allow t).2.tokens ≤ 0) := by
  refine ⟨fun _ _ _ => rfl, fun _ _ _ _ => rfl, fun rl t hcap htok => ?_⟩
  have hnot : ¬ rl.refilledTokens t > 0 := by
    unfold RateLimiter.refilledTokens
    split
    · exact fun h => absurd h (not_lt.mpr (le_trans (min_le_left _ _) hcap))
    · exact fun h => absurd h (not_lt.mpr htok)
  have hrt : rl.refilledTokens t ≤ 0 := le_of_not_lt hnot
  rw [allow_eq, if_neg hnot]
  exact ⟨rfl, hcap, hrt⟩

/-- C2 witness: the unvalidated capacity `-2` bucket is constructed and then
always denies. -/
theorem newRateLimiter_no_validation_witness :
    ((NewRateLimiter (-2) 5 0).Allow 100).1 = false :=
  (newRateLimiter_no_validation.2.2 (NewRateLimiter (-2) 5 0) 100 (by decide) (by decide)).1

/-- C3: each `Allow` call computes `tokensToAdd = floor(elapsed / fillInterval)`;
when it is positive the refill sets `tokens = min(capacity, tokens + tokensToAdd)`
and advances `lastTokenTime` to `now`, otherwise `lastTokenTime` is unchanged;
the call then admits exactly when the refilled count is positive, consuming one
token, and otherwise denies leaving only the refill applied. -/
theorem rateLimiter_allow_refill_then_consume (rl : RateLimiter) (now : Nat) :
    rl.tokensToAdd now = (((now - rl.lastTokenTime) / rl.fillInterval : Nat) : Int)
    ∧ rl.refilledTokens now =
        (if rl.tokensToAdd now > 0 then min rl.capacity (rl.tokens + rl.tokensToAdd now)
         else rl.tokens)
    ∧ (rl.Allow now).1 = decide (rl.refilledTokens now > 0)
    ∧ (rl.Allow now).2.tokens =
        (if rl.refilledTokens now > 0 then rl.refilledTokens now - 1
         else rl.refilledTokens now)
    ∧ (rl.Allow now).2.lastTokenTime =
        (if rl.tokensToAdd now > 0 then now else rl.lastTokenTime)
    ∧ (rl.Allow now).2.capacity = rl.capacity
    ∧ (rl.Allow now).2.fillInterval = rl.fillInterval := by
  refine ⟨rfl, rfl, ?_, ?_, ?_, ?_, ?_⟩ <;> rw [allow_eq] <;>
    by_cases h : rl.refilledTokens now > 0 <;> simp [h]

/-- C4: a positive-capacity bucket whose token count lies in `[0, capacity]`
keeps it there across any `Allow` call, however much idle time elapsed, and
`lastTokenTime` never moves backward. -/
theorem rateLimiter_invariant_preserved (rl : RateLimiter) (now : Nat)
    (hcap : 0 < rl.capacity) (h0 : 0 ≤ rl.tokens) (h1 : rl.tokens ≤ rl.capacity) :
    0 ≤ (rl.Allow now).2.tokens
    ∧ (rl.Allow now).2.tokens ≤ (rl.Allow now).2.capacity
    ∧ (rl.Allow now).2.capacity = rl.capacity
    ∧ rl.lastTokenTime ≤ (rl.Allow now).2.lastTokenTime := by
  have hadd := tokensToAdd_nonneg rl now
  have hrt0 : 0 ≤ rl.refilledTokens now := by
    unfold RateLimiter.refilledTokens
    split
    · exact le_min (le_of_lt hcap) (add_nonneg h0 hadd)
    · exact h0
  have hrt1 : rl.refilledTokens now ≤ rl.capacity := by
    unfold RateLimiter.refilledTokens
    split
    · exact min_le_left _ _
    · exact h1
  have hlast : rl.lastTokenTime ≤ (if rl.tokensToAdd now > 0 then now else rl.lastTokenTime) := by
    split
    · exact le_of_lt (lastTokenTime_lt_of_tokensToAdd_pos (by assumption))
    · exact le_refl _
  rw [allow_eq]
  split
  next h =>
    refine ⟨?_, ?_, rfl, hlast⟩
    · show 0 ≤ rl.refilledTokens now - 1
      omega
    · show rl.refilledTokens now - 1 ≤ rl.capacity
      omega
  next h =>
    exact ⟨hrt0, hrt1, rfl, hlast⟩

/-- C4 witness: a drained bucket of capacity 2 checked after 3.5 intervals. -/
theorem rateLimiter_invariant_preserved_witness :
    0 < (NewRateLimiter 2 10 0).capacity
    ∧ (0 ≤ ((NewRateLimiter 2 10 0).Allow 35).2.tokens
      ∧ ((NewRateLimiter 2 10 0).Allow 35).2.tokens
          ≤ ((NewRateLimiter 2 10 0).Allow 35).2.capacity
      ∧ ((NewRateLimiter 2 10 0).Allow 35).2.capacity = (NewRateLimiter 2 10 0).capacity
      ∧ (NewRateLimiter 2 10 0).lastTokenTime
          ≤ ((NewRateLimiter 2 10 0).Allow 35).2.lastTokenTime) :=
  ⟨by decide,
    rateLimiter_invariant_preserved (NewRateLimiter 2 10 0) 35 (by decide) (by decide)
      (by decide)⟩

/-- Calling `Allow` at the bucket's own `lastTokenTime` (zero elapsed time): no refill
happens, only the consume step runs. -/
lemma allow_at_lastTokenTime (rl : RateLimiter) :
    rl.Allow rl.lastTokenTime =
      if rl.tokens > 0 then (true, { rl with tokens := rl.tokens - 1 })
      else (false, rl) := by
  have hadd : rl.tokensToAdd rl.lastTokenTime = 0 := by
    unfold RateLimiter.tokensToAdd
    simp
  have hrt : rl.refilledTokens rl.lastTokenTime = rl.tokens := by
    unfold RateLimiter.refilledTokens
    rw [hadd]
    simp
  rw [allow_eq, hrt, hadd]
  simp only [ite_self]

/-- Repeated `Allow` calls with no elapsed time: with `k` tokens on hand, the
first `k` of `n` calls admit and the rest deny. -/
lemma allowRepeat_no_refill (n : Nat) (now : Nat) : ∀ (rl : RateLimiter) (k : Nat),
    rl.tokens = (k : Int) → rl.lastTokenTime = now →
    (rl.allowRepeat now n).1
      = List.replicate (min k n) true ++ List.replicate (n - k) false := by
  induction n with
  | zero =>
    intro rl k hk hlt
    simp [RateLimiter.allowRepeat]
  | succ n ih =>
    intro rl k hk hlt
    have hstep : rl.Allow now =
        (if rl.tokens > 0 then (true, { rl with tokens := rl.tokens - 1 })
         else (false, rl)) := by
      rw [← hlt, allow_at_lastTokenTime]
    simp only [RateLimiter.allowRepeat, hstep]
    by_cases h : rl.tokens > 0
    · rw [if_pos h]
      have hkpos : 0 < k := by
        have := hk ▸ h
        exact_mod_cast this
      obtain ⟨m, rfl⟩ : ∃ m, k = m + 1 := ⟨k - 1, by omega⟩
      have ih' := ih { rl with tokens := rl.tokens - 1 } m (by rw [hk]; push_cast; ring) hlt
      dsimp only
      rw [ih', Nat.succ_min_succ, Nat.succ_sub_succ]
      rfl
    · rw [if_neg h]
      have hk0 : k = 0 := by
        have : ¬ ((k : Int) > 0) := hk ▸ h
        omega
      subst hk0
      have ih' := ih rl 0 hk hlt
      dsimp only
      rw [ih']
      simp [List.replicate_succ]

/-- C5: a fresh bucket of positive capacity `C` admits exactly its first `C`
back-to-back calls and denies the `(C+1)`th. -/
theorem freshBucket_admits_exactly_capacity (C fi t0 : Nat) (_hC : 0 < C) :
    ((NewRateLimiter (C : Int) fi t0).allowRepeat t0 (C + 1)).1
      = List.replicate C true ++ [false] := by
  rw [allowRepeat_no_refill (C + 1) t0 (NewRateLimiter (C : Int) fi t0) C rfl rfl,
    Nat.min_eq_left (Nat.le_succ C), Nat.succ_sub (Nat.le_refl C), Nat.sub_self]
  rfl

/-- C5 witness: capacity 3, four consecutive calls. -/
theorem freshBucket_admits_exactly_capacity_witness :
    0 < 3
    ∧ ((NewRateLimiter ((3 : Nat) : Int) 10 0).allowRepeat 0 (3 + 1)).1
        = List.replicate 3 true ++ [false] :=
  ⟨by decide, freshBucket_admits_exactly_capacity 3 10 0 (by decide)⟩

/-! ## Composite-limiter lemmas -/

/-- Looking up the key just stored returns the stored limiter. -/
lemma lookup_storeIpLimiter_self (m : List (String × RateLimiter)) (ip : String)
    (rl : RateLimiter) : (storeIpLimiter m ip rl).lookup ip = some rl := by
  induction m with
  | nil => simp [storeIpLimiter, List.lookup]
  | cons p rest ih =>
    by_cases h : p.1 = ip
    · simp [storeIpLimiter, h, List.lookup]
    · have hbe : (ip == p.1) = false := beq_eq_false_iff_ne.mpr (Ne.symm h)
      simp [storeIpLimiter, h, List.lookup, hbe, ih]

/-- A successful `Allow` leaves one token fewer than the refill produced. -/
lemma allow_true_tokens {rl : RateLimiter} {now : Nat}
    (h : (rl.Allow now).1 = true) :
    (rl.Allow now).2.tokens = rl.refilledTokens now - 1 := by
  rw [allow_eq] at h ⊢
  split at h
  · rw [if_pos (by assumption)]
  · exact absurd h (by simp)

/-- Composite `Allow` when the global limiter denies: the per-key bucket is left exactly
as ensured, the global limiter keeps only its refill, and the call goes to the
queue. -/
lemma composite_allow_eq_of_global_deny (c : CompositeRateLimiter) (ip : String)
    (now : Nat) (o : WaitOutcome) (h : (c.globalLimiter.Allow now).1 = false) :
    c.Allow ip now o =
      (waitResult o,
        { c with
          ipLimiters := storeIpLimiter c.ipLimiters ip (c.ensuredIpLimiter ip now)
          globalLimiter := (c.globalLimiter.Allow now).2
          queue := c.queue ++ [c.nextWaitId]
          nextWaitId := c.nextWaitId + 1
          queueSignalPending := trySendSignal c.queueSignalPending }) := by
  unfold CompositeRateLimiter.Allow CompositeRateLimiter.enqueueAndWait
  simp only [h]
  rfl

/-- Composite `Allow` when the global limiter admits but the per-key limiter denies: both
limiters keep their post-`Allow` states (the global token is spent) and the
call goes to the queue. -/
lemma composite_allow_eq_of_ip_deny (c : CompositeRateLimiter) (ip : String)
    (now : Nat) (o : WaitOutcome) (h1 : (c.globalLimiter.Allow now).1 = true)
    (h2 : ((c.ensuredIpLimiter ip now).Allow now).1 = false) :
    c.Allow ip now o =
      (waitResult o,
        { c with
          ipLimiters :=
            storeIpLimiter (storeIpLimiter c.ipLimiters ip (c.ensuredIpLimiter ip now))
              ip ((c.ensuredIpLimiter ip now).Allow now).2
          globalLimiter := (c.globalLimiter.Allow now).2
          queue := c.queue ++ [c.nextWaitId]
          nextWaitId := c.nextWaitId + 1
          queueSignalPending := trySendSignal c.queueSignalPending }) := by
  unfold CompositeRateLimiter.Allow CompositeRateLimiter.enqueueAndWait
  simp only [h1, h2]
  rfl

/-- Composite `Allow` when both tiers admit: immediate admission with the empty message,
nothing queued, no doorbell rung. -/
lemma composite_allow_eq_of_pass (c : CompositeRateLimiter) (ip : String)
    (now : Nat) (o : WaitOutcome) (h1 : (c.globalLimiter.Allow now).1 = true)
    (h2 : ((c.ensuredIpLimiter ip now).Allow now).1 = true) :
    c.Allow ip now o =
      ((true, ""),
        { c with
          ipLimiters :=
            storeIpLimiter (storeIpLimiter c.ipLimiters ip (c.ensuredIpLimiter ip now))
              ip ((c.ensuredIpLimiter ip now).Allow now).2
          globalLimiter := (c.globalLimiter.Allow now).2 }) := by
  unfold CompositeRateLimiter.Allow
  simp only [h1, h2]
  rfl

/-- C1: the global bucket is consulted first.  If it denies, the call fails
immediate admission (it enqueues and returns the wait's result) with the
per-key bucket's consume never invoked — the stored per-key bucket is exactly
the ensured one, its token count the pre-call count (or the full allotment for
a new key).  If the global bucket admits and the per-key bucket denies, the
call still fails immediate admission but the global limiter has already spent
the token: its stored state is the post-consume state, one below its refilled
count. -/
theorem composite_global_checked_first (c : CompositeRateLimiter) (ip : String)
    (now : Nat) (o : WaitOutcome) :
    ((c.globalLimiter.Allow now).1 = false →
      (c.Allow ip now o).1 = waitResult o
      ∧ (c.Allow ip now o).2.ipLimiters.lookup ip = some (c.ensuredIpLimiter ip now)
      ∧ (c.ensuredIpLimiter ip now).tokens =
          (match c.ipLimiters.lookup ip with
            | some l => l.tokens
            | none => c.ipCapacity)
      ∧ (c.Allow ip now o).2.globalLimiter = (c.globalLimiter.Allow now).2)
    ∧ ((c.globalLimiter.Allow now).1 = true →
        ((c.ensuredIpLimiter ip now).Allow now).1 = false →
      (c.Allow ip now o).1 = waitResult o
      ∧ (c.Allow ip now o).2.globalLimiter = (c.globalLimiter.Allow now).2
      ∧ (c.globalLimiter.Allow now).2.tokens = c.globalLimiter.refilledTokens now - 1) := by
  constructor
  · intro h
    rw [composite_allow_eq_of_global_deny c ip now o h]
    refine ⟨rfl, lookup_storeIpLimiter_self _ _ _, ?_, rfl⟩
    unfold CompositeRateLimiter.ensuredIpLimiter
    cases c.ipLimiters.lookup ip <;> rfl
  · intro h1 h2
    rw [composite_allow_eq_of_ip_deny c ip now o h1 h2]
    exact ⟨rfl, rfl, allow_true_tokens h1⟩

/-- C1 witness: global capacity 0 forces a global deny with the fresh per-key
bucket untouched; global capacity 1 with per-key capacity 0 spends the global
token on a per-key deny. -/
theorem composite_global_checked_first_witness :
    (((NewCompositeRateLimiter 10 0 100 0).globalLimiter.Allow 0).1 = false
      ∧ (((NewCompositeRateLimiter 10 0 100 0).Allow "k" 0 .timedOut).1
          = waitResult .timedOut
        ∧ ((NewCompositeRateLimiter 10 0 100 0).Allow "k" 0
            .timedOut).2.ipLimiters.lookup "k"
          = some ((NewCompositeRateLimiter 10 0 100 0).ensuredIpLimiter "k" 0)
        ∧ ((NewCompositeRateLimiter 10 0 100 0).ensuredIpLimiter "k" 0).tokens =
            (match (NewCompositeRateLimiter 10 0 100 0).ipLimiters.lookup "k" with
              | some l => l.tokens
              | none => (NewCompositeRateLimiter 10 0 100 0).ipCapacity)
        ∧ ((NewCompositeRateLimiter 10 0 100 0).Allow "k" 0 .timedOut).2.globalLimiter
          = ((NewCompositeRateLimiter 10 0 100 0).globalLimiter.Allow 0).2))
    ∧ (((NewCompositeRateLimiter 0 1 100 0).globalLimiter.Allow 0).1 = true
      ∧ (((NewCompositeRateLimiter 0 1 100 0).ensuredIpLimiter "k" 0).Allow 0).1 = false
      ∧ ((((NewCompositeRateLimiter 0 1 100 0).Allow "k" 0 .timedOut).1
          = waitResult .timedOut
        ∧ ((NewCompositeRateLimiter 0 1 100 0).Allow "k" 0 .timedOut).2.globalLimiter
          = ((NewCompositeRateLimiter 0 1 100 0).globalLimiter.Allow 0).2
        ∧ ((NewCompositeRateLimiter 0 1 100 0).globalLimiter.Allow 0).2.tokens
          = (NewCompositeRateLimiter 0 1 100 0).globalLimiter.refilledTokens 0 - 1))) :=
  ⟨⟨by decide,
    (composite_global_checked_first (NewCompositeRateLimiter 10 0 100 0) "k" 0
      .timedOut).1 (by decide)⟩,
   ⟨by decide, by decide,
    (composite_global_checked_first (NewCompositeRateLimiter 0 1 100 0) "k" 0
      .timedOut).2 (by decide) (by decide)⟩⟩

/-- Every resolution the drainer performs writes the value `true` into the
popped wait handle (`wait <- true`, line 164). -/
lemma drainQueue_resolutions_true : ∀ (q : List Nat) (g : RateLimiter) (now : Nat)
    (r : Nat × Bool), r ∈ (drainQueue q g now).1 → r.2 = true := by
  intro q
  induction q with
  | nil =>
    intro g now r hr
    simp [drainQueue] at hr
  | cons w rest ih =>
    intro g now r hr
    unfold drainQueue at hr
    by_cases h : (g.Allow now).1 <;> simp [h] at hr
    rcases hr with rfl | hr
    · rfl
    · exact ih _ _ _ hr

/-- The drainer admits a prefix of the queue and leaves the matching suffix,
in order. -/
lemma drainQueue_take_drop : ∀ (q : List Nat) (g : RateLimiter) (now : Nat),
    ∃ k, (drainQueue q g now).1.map Prod.fst = q.take k
      ∧ (drainQueue q g now).2.1 = q.drop k := by
  intro q
  induction q with
  | nil =>
    intro g now
    exact ⟨0, rfl, rfl⟩
  | cons w rest ih =>
    intro g now
    by_cases h : (g.Allow now).1
    · obtain ⟨k, h1, h2⟩ := ih (g.Allow now).2 now
      refine ⟨k + 1, ?_, ?_⟩ <;> unfold drainQueue <;> simp [h, h1, h2]
    · refine ⟨0, ?_, ?_⟩ <;> unfold drainQueue <;> simp [h]

/-- C6 counterexample: the timed-out caller's message in the code is the
Chinese string "请求超时，请稍后再试！", not the English sentence the claim
quotes. -/
theorem waitResult_timeout_message_counterexample :
    waitResult .timedOut ≠ (false, "request timed out, try again later") := by
  decide

/-- C6 (amended): the wait on the handle is bounded by the fixed 5-second
timeout; on timeout the caller returns `(false, "请求超时，请稍后再试！")`
("request timed out, please try again later"), and when the handle is resolved
first it returns the resolved value with the empty message — `(true, "")`,
since the drainer resolves only with `true`. -/
theorem waitResult_amended :
    queueWaitTimeoutSeconds = 5
    ∧ waitResult .timedOut = (false, "请求超时，请稍后再试！")
    ∧ waitResult (.resolved true) = (true, "")
    ∧ (∀ v, (waitResult (.resolved v)).2 = "")
    ∧ (∀ (q : List Nat) (g : RateLimiter) (t : Nat) (r : Nat × Bool),
        r ∈ (drainQueue q g t).1 → r.2 = true) :=
  ⟨rfl, rfl, rfl, fun _ => rfl, drainQueue_resolutions_true⟩

/-- C6 witness: the concrete resolution the drainer performs on a one-entry
queue with a token available carries the value `true`. -/
theorem waitResult_amended_witness :
    ((7, true) ∈ (drainQueue [7] (NewRateLimiter 1 10 0) 0).1 →
      (((7 : Nat), true) : Nat × Bool).2 = true)
    ∧ (7, true) ∈ (drainQueue [7] (NewRateLimiter 1 10 0) 0).1 :=
  ⟨waitResult_amended.2.2.2.2 [7] (NewRateLimiter 1 10 0) 0 (7, true), by decide⟩

/-- C7: a drainer wake-up pops strictly from the head — the resolved entries
are a prefix of the queue and the untouched remainder is the matching suffix —
and it reads and writes no per-key state.  With exactly one global token on
hand and no refill due, only the head entry is admitted. -/
theorem drainer_fifo_global_only (c : CompositeRateLimiter) (now : Nat) :
    (∃ k, (c.processQueueWake now).1.map Prod.fst = c.queue.take k
      ∧ (c.processQueueWake now).2.queue = c.queue.drop k)
    ∧ (c.processQueueWake now).2.ipLimiters = c.ipLimiters
    ∧ (c.processQueueWake now).2.ipCapacity = c.ipCapacity
    ∧ (∀ (a : Nat) (rest : List Nat), c.queue = a :: rest →
        c.globalLimiter.tokens = 1 → c.globalLimiter.lastTokenTime = now →
        (c.processQueueWake now).1 = [(a, true)]
        ∧ (c.processQueueWake now).2.queue = rest) := by
  refine ⟨drainQueue_take_drop c.queue c.globalLimiter now, rfl, rfl, ?_⟩
  intro a rest hq h1 hlast
  have hg : c.globalLimiter.Allow now =
      (true, ⟨c.globalLimiter.capacity, 0, c.globalLimiter.fillInterval,
        c.globalLimiter.lastTokenTime⟩) := by
    rw [← hlast, allow_at_lastTokenTime, if_pos (by rw [h1]; norm_num)]
    simp [h1]
  have hg0 : (⟨c.globalLimiter.capacity, 0, c.globalLimiter.fillInterval,
      c.globalLimiter.lastTokenTime⟩ : RateLimiter).Allow now =
      (false, ⟨c.globalLimiter.capacity, 0, c.globalLimiter.fillInterval,
        c.globalLimiter.lastTokenTime⟩) := by
    rw [← hlast]
    have h := allow_at_lastTokenTime (⟨c.globalLimiter.capacity, 0,
      c.globalLimiter.fillInterval, c.globalLimiter.lastTokenTime⟩ : RateLimiter)
    simpa using h
  unfold CompositeRateLimiter.processQueueWake
  rw [hq]
  cases rest with
  | nil =>
    refine ⟨?_, ?_⟩ <;> simp [drainQueue, hg]
  | cons b more =>
    refine ⟨?_, ?_⟩ <;> simp [drainQueue, hg, hg0]

/-- C7 witness: a three-entry queue with one global token admits only the
oldest entry. -/
theorem drainer_fifo_global_only_witness :
    (({ ipLimiters := [], globalLimiter := ⟨5, 1, 10, 0⟩, queue := [5, 6, 7],
          queueSignalPending := 0, ipCapacity := 2, globalCapacity := 5,
          nextWaitId := 8 } : CompositeRateLimiter).processQueueWake 0).1 = [(5, true)]
    ∧ (({ ipLimiters := [], globalLimiter := ⟨5, 1, 10, 0⟩, queue := [5, 6, 7],
            queueSignalPending := 0, ipCapacity := 2, globalCapacity := 5,
            nextWaitId := 8 } : CompositeRateLimiter).processQueueWake 0).2.queue
        = [6, 7] :=
  (drainer_fifo_global_only
    { ipLimiters := [], globalLimiter := ⟨5, 1, 10, 0⟩, queue := [5, 6, 7],
      queueSignalPending := 0, ipCapacity := 2, globalCapacity := 5,
      nextWaitId := 8 } 0).2.2.2 5 [6, 7] rfl (by decide) (by decide)

/-- C8: the doorbell is a capacity-one coalescing notification: the enqueue
path's send either buffers the signal (when the single slot is free) or is
dropped (when it is full), in both cases completing without waiting, and every
channel state reachable by sends and drainer receives holds at most one
pending wake-up. -/
theorem doorbell_coalescing (p : Nat) :
    queueSignalCapacity = 1
    ∧ (p < 1 ∧ trySendSignal p = p + 1 ∨ 1 ≤ p ∧ trySendSignal p = p)
    ∧ (SignalReachable p → p ≤ 1) := by
  refine ⟨rfl, ?_, ?_⟩
  · unfold trySendSignal queueSignalCapacity
    by_cases hp : p < 1
    · exact Or.inl ⟨hp, if_pos hp⟩
    · exact Or.inr ⟨Nat.le_of_not_lt hp, if_neg hp⟩
  · intro h
    induction h with
    | init => exact Nat.zero_le 1
    | send _ ih =>
      unfold trySendSignal queueSignalCapacity
      split
      · omega
      · exact ih
    | recv _ hp ih => omega

/-- C8 witness: two back-to-back doorbell rings from the initial state coalesce
into a single pending wake-up. -/
theorem doorbell_coalescing_witness : trySendSignal (trySendSignal 0) ≤ 1 :=
  (doorbell_coalescing (trySendSignal (trySendSignal 0))).2.2
    (SignalReachable.send (SignalReachable.send SignalReachable.init))

/-- C9: the wait handle the enqueue path creates is the *unbuffered*
`make(chan bool)`, so the drainer's `wait <- true` into an abandoned handle
(its caller timed out and stopped receiving) never completes — the drainer
blocks, holding the limiter's lock.  A one-slot buffered handle, which the
spec requires, would let the send complete. -/
theorem waitHandle_unbuffered_send_blocks :
    waitChanCapacity = 0
    ∧ sendCompletesWithoutReceiver waitChanCapacity 0 = false
    ∧ sendCompletesWithoutReceiver 1 0 = true := by
  decide

/-- C10: the drainer resolves wait handles only with `true`, so a queued
caller's wait never delivers `false`; hence whenever `Allow` returns `false`
at all, it does so through the timeout branch with the timeout message — no
deny carries the empty message. -/
theorem deny_only_via_timeout (c : CompositeRateLimiter) (ip : String) (now : Nat)
    (o : WaitOutcome) :
    (∀ (q : List Nat) (g : RateLimiter) (t : Nat) (r : Nat × Bool),
        r ∈ (drainQueue q g t).1 → r.2 = true)
    ∧ ((∀ v, o = .resolved v → v = true) → (c.Allow ip now o).1.1 = false →
        (c.Allow ip now o).1 = (false, "请求超时，请稍后再试！")) := by
  refine ⟨drainQueue_resolutions_true, ?_⟩
  intro ho hfalse
  have hwait : waitResult o = (false, "请求超时，请稍后再试！") →
      (c.Allow ip now o).1 = waitResult o →
      (c.Allow ip now o).1 = (false, "请求超时，请稍后再试！") :=
    fun h1 h2 => h2.trans h1
  by_cases h1 : (c.globalLimiter.Allow now).1
  · by_cases h2 : ((c.ensuredIpLimiter ip now).Allow now).1
    · rw [composite_allow_eq_of_pass c ip now o h1 h2] at hfalse
      exact absurd hfalse (by simp)
    · rw [composite_allow_eq_of_ip_deny c ip now o h1 (by simpa using h2)] at hfalse ⊢
      cases o with
      | resolved v =>
        have hv := ho v rfl
        subst hv
        exact absurd hfalse (by simp [waitResult])
      | timedOut => rfl
  · rw [composite_allow_eq_of_global_deny c ip now o (by simpa using h1)] at hfalse ⊢
    cases o with
    | resolved v =>
      have hv := ho v rfl
      subst hv
      exact absurd hfalse (by simp [waitResult])
    | timedOut => rfl

/-- C10 witness: a globally saturated limiter whose caller's wait times out
returns exactly the timeout pair. -/
theorem deny_only_via_timeout_witness :
    ((NewCompositeRateLimiter 10 0 100 0).Allow "k" 0 .timedOut).1
      = (false, "请求超时，请稍后再试！") :=
  (deny_only_via_timeout (NewCompositeRateLimiter 10 0 100 0) "k" 0 .timedOut).2
    (fun v h => by cases h) (by decide)

